import Mathlib

/-!
Shallow embedding of the record-set algebra and network-construction engine of
src/metaknowledge/recordCollection.py, together with theorems settling the
claims about it.

Strings are modelled as lists of characters (`Str`).  `Record` and `Citation`
are modelled as plain structures exposing exactly the accessor contract that
recordCollection.py relies on (record.py and citation.py are external to the
analysed source; the spec declares their accessors a boundary contract, so the
fields below are those accessors).  The graph produced by networkx 1.x is
modelled as an insertion-ordered node list with attribute records plus an
insertion-ordered undirected edge list carrying an optional weight.
-/

namespace MK

abbrev Str := List Char

/-- Error taxonomy: the Python exception classes actually raised by
recordCollection.py.  `typeError` is Python TypeError (the spec calls this
class TypeMismatch, e.g. in yearSplit), `rcValueError` is the RCValueError
raised for an unknown nodeType (the spec calls this class InvalidArgument),
`keyError` is Python KeyError (the spec calls it NotFound). -/
inductive PyErr
  | typeError
  | rcValueError
  | keyError
deriving DecidableEq

/-- Citation boundary contract.  citation.py is not part of the analysed
source; the spec (section 6) fixes the accessors a Citation exposes: `author`,
`year`, `journal`, `V`, `P`, `original` (raw text), `isAnonymous()`,
`isJournal()`.  `strForm` models str(c), the rendered form of the citation
used by the keyword filter; `allButDOI` and `fullJournalName` model the
allButDOI() and FullJournalName() strings used only as node info text. -/
structure Citation where
  author : Option Str
  year : Option Int
  journal : Option Str
  V : Option Str
  P : Option Str
  original : Str
  strForm : Str
  allButDOI : Str
  fullJournalName : Str
  anonymous : Bool
  journalArticle : Bool
deriving DecidableEq

/-- Record boundary contract (spec section 6): a stable id, the values of the
tags recordCollection.py reads (authorsFull, citations, year), the bad flag,
and createCitation(multiCite=True) as the ordered per-author citation list. -/
structure Record where
  rid : Str
  authorsFull : List Str
  citations : List Citation
  year : Option Int
  bad : Bool
  multiCites : List Citation
deriving DecidableEq

/-! ## Record Set Store: RecordCollection and its algebraic operations -/

/-- RecordCollection state: the deduplicated record set `_Records`, the `bad`
flag and the `errors` map (filename to error text, insertion ordered as a
Python dict). -/
structure RecordCollection where
  recs : Finset Record
  bad : Bool
  errors : List (Str × Str)

/-- Python dict.update semantics: keys of `a` keep their position with values
overridden by `b` where present; keys only in `b` are appended in order. -/
def dictUpdate (a b : List (Str × Str)) : List (Str × Str) :=
  a.map (fun p => match b.lookup p.1 with | some v => (p.1, v) | Option.none => p)
    ++ b.filter (fun p => (a.lookup p.1).isNone)

/-- RecordCollection() with no argument: the empty collection. -/
def emptyRC : RecordCollection := ⟨∅, false, []⟩

/-- RecordCollection.__or__: builds a fresh collection from the set union
(fresh `bad` and `errors` from __init__), then marks it bad and updates its
errors with the errors of `other` when either operand is bad. -/
def orRC (A B : RecordCollection) : RecordCollection :=
  let ret : RecordCollection := ⟨A.recs ∪ B.recs, false, []⟩
  if B.bad || A.bad then ⟨ret.recs, true, dictUpdate ret.errors B.errors⟩ else ret

/-- RecordCollection.__and__ (set intersection), same bad/errors handling as
__or__. -/
def andRC (A B : RecordCollection) : RecordCollection :=
  let ret : RecordCollection := ⟨A.recs ∩ B.recs, false, []⟩
  if B.bad || A.bad then ⟨ret.recs, true, dictUpdate ret.errors B.errors⟩ else ret

/-- RecordCollection.__sub__ (set difference), same bad/errors handling as
__or__. -/
def subRC (A B : RecordCollection) : RecordCollection :=
  let ret : RecordCollection := ⟨A.recs \ B.recs, false, []⟩
  if B.bad || A.bad then ⟨ret.recs, true, dictUpdate ret.errors B.errors⟩ else ret

/-- RecordCollection.__xor__ (symmetric difference), same bad/errors handling
as __or__. -/
def xorRC (A B : RecordCollection) : RecordCollection :=
  let ret : RecordCollection := ⟨(A.recs \ B.recs) ∪ (B.recs \ A.recs), false, []⟩
  if B.bad || A.bad then ⟨ret.recs, true, dictUpdate ret.errors B.errors⟩ else ret

/-- RecordCollection.__ior__: mutates self, so self keeps its own errors and
updates them with the errors of `other` when either operand is bad. -/
def iorRC (A B : RecordCollection) : RecordCollection :=
  let A1 : RecordCollection := ⟨A.recs ∪ B.recs, A.bad, A.errors⟩
  if B.bad || A1.bad then ⟨A1.recs, true, dictUpdate A1.errors B.errors⟩ else A1

/-- RecordCollection.__iand__. -/
def iandRC (A B : RecordCollection) : RecordCollection :=
  let A1 : RecordCollection := ⟨A.recs ∩ B.recs, A.bad, A.errors⟩
  if B.bad || A1.bad then ⟨A1.recs, true, dictUpdate A1.errors B.errors⟩ else A1

/-- RecordCollection.__isub__. -/
def isubRC (A B : RecordCollection) : RecordCollection :=
  let A1 : RecordCollection := ⟨A.recs \ B.recs, A.bad, A.errors⟩
  if B.bad || A1.bad then ⟨A1.recs, true, dictUpdate A1.errors B.errors⟩ else A1

/-- RecordCollection.__ixor__. -/
def ixorRC (A B : RecordCollection) : RecordCollection :=
  let A1 : RecordCollection := ⟨(A.recs \ B.recs) ∪ (B.recs \ A.recs), A.bad, A.errors⟩
  if B.bad || A1.bad then ⟨A1.recs, true, dictUpdate A1.errors B.errors⟩ else A1

/-- RecordCollection.__eq__: equality compares only the contained record
sets. -/
def eqRC (A B : RecordCollection) : Prop := A.recs = B.recs

/-- RecordCollection.__le__: strictly a comparison of the numbers of records. -/
def leRC (A B : RecordCollection) : Prop := A.recs.card ≤ B.recs.card

/-- RecordCollection.__ge__. -/
def geRC (A B : RecordCollection) : Prop := A.recs.card ≥ B.recs.card

/-! ## Citation Identity Model: node values, makeID -/

/-- A networkx node id / Python attribute value as produced by the engine:
None, a string, or an integer (year mode uses integers). -/
inductive NodeVal
  | nil
  | str (s : Str)
  | int (i : Int)
deriving DecidableEq

/-- Python truthiness of the values getattr can return here: None, the empty
string and 0 are falsy. -/
def NodeVal.falsy : NodeVal → Bool
  | .nil => true
  | .str s => s.isEmpty
  | .int i => i == 0

/-- The five node modes accepted by the network builders. -/
inductive NodeType
  | full
  | original
  | author
  | journal
  | year
deriving DecidableEq

def optStr : Option Str → NodeVal
  | Option.none => .nil
  | some s => .str s

def optInt : Option Int → NodeVal
  | Option.none => .nil
  | some i => .int i

/-- getattr(citation, nodeType) for the non-full modes (the full case is never
taken: makeID guards it). -/
def getattrNV (c : Citation) : NodeType → NodeVal
  | .full => .nil
  | .original => .str c.original
  | .author => optStr c.author
  | .journal => optStr c.journal
  | .year => optInt c.year

def intToStr (i : Int) : Str := (toString i).toList

def joinCommaSpace : List Str → Str
  | [] => []
  | [s] => s
  | s :: rest => s ++ (',' :: ' ' :: joinCommaSpace rest)

/-- Modelled from the spec: Citation.ID() lives in citation.py, which is not
under the analysed source; per spec section 4.1 the full identity is a
composite key built from all non-missing fields in the fixed order author,
year, journal, volume, page, joined deterministically. -/
def Citation.idKey (c : Citation) : Str :=
  joinCommaSpace (([c.author, c.year.map intToStr, c.journal, c.V, c.P]).filterMap id)

/-- makeID (recordCollection.py line 1737): for a non-full mode the raw
attribute value, for full mode the composite identity string. -/
def makeID (c : Citation) (nt : NodeType) : NodeVal :=
  if nt ≠ NodeType.full then getattrNV c nt else .str c.idKey

/-! ## Filter Pipeline: filterCites -/

/-- Python substring containment `n in h` on strings as character lists. -/
def isSubstr (n : Str) : Str → Bool
  | [] => n.isEmpty
  | c :: t => n.isPrefixOf (c :: t) || isSubstr n t

/-- The keyword test of filterCites: str(c).upper() contains any keyword,
uppercased, as a substring.  A single-string keyWords argument behaves as the
singleton list; None and the empty list both skip the check (Python
truthiness), so keyWords is modelled as a list with [] for None. -/
def kwFound (keyWords : List Str) (s : Str) : Bool :=
  keyWords.any (fun k => isSubstr (k.map Char.toUpper) (s.map Char.toUpper))

/-- The per-citation elif chain of filterCites (lines 1785-1808).  coreCites
is the optional core membership test: `some f` models a truthy coreCites whose
membership test is f, `Option.none` models both None and an empty (falsy)
coreCites. -/
def citeKept (nt : NodeType) (dropAnon dropNonJournals : Bool) (keyWords : List Str)
    (coreCites : Option (Citation → Bool)) (c : Citation) : Bool :=
  if nt ≠ NodeType.full ∧ (getattrNV c nt).falsy then false
  else if dropNonJournals ∧ ¬c.journalArticle then false
  else if dropAnon ∧ c.anonymous then false
  else if (match coreCites with | some inCore => !inCore c | Option.none => false) then false
  else if keyWords ≠ [] then !kwFound keyWords c.strForm
  else true

/-- filterCites (recordCollection.py line 1783): keeps, in order, the
citations passing every enabled check. -/
def filterCites (cites : List Citation) (nt : NodeType) (dropAnon dropNonJournals : Bool)
    (keyWords : List Str) (coreCites : Option (Citation → Bool)) : List Citation :=
  cites.filter (citeKept nt dropAnon dropNonJournals keyWords coreCites)

/-! ## Network Builder: the networkx 1.x graph and addToNetwork -/

/-- The node attribute dictionary as populated by makeNodeTuple: the possible
keys are info, fullCite, count and inCore, each present or absent. -/
structure Attrs where
  info : Option NodeVal
  fullCite : Option Str
  count : Option Nat
  inCore : Option Bool
deriving DecidableEq

def Attrs.empty : Attrs := ⟨Option.none, Option.none, Option.none, Option.none⟩

/-- An undirected networkx 1.x graph: insertion-ordered nodes with attribute
dictionaries, insertion-ordered edges with an optional weight entry.  An edge
is stored once; both orientations match it. -/
structure Graph where
  nodes : List (NodeVal × Attrs)
  edges : List (NodeVal × NodeVal × Option Nat)
deriving DecidableEq

def Graph.empty : Graph := ⟨[], []⟩

def Graph.hasNode (g : Graph) (v : NodeVal) : Bool :=
  g.nodes.any (fun p => p.1 == v)

/-- G.node[v], defaulting to the empty dictionary (the default is never used
on the paths exercised: lookups follow membership checks). -/
def Graph.nodeAttrs (g : Graph) (v : NodeVal) : Attrs :=
  ((g.nodes.find? (fun p => p.1 == v)).map Prod.snd).getD Attrs.empty

def Graph.addNode (g : Graph) (v : NodeVal) (a : Attrs) : Graph :=
  ⟨g.nodes ++ [(v, a)], g.edges⟩

/-- networkx add_edge creates missing endpoint nodes with empty attribute
dictionaries. -/
def Graph.ensureNode (g : Graph) (v : NodeVal) : Graph :=
  if g.hasNode v then g else g.addNode v Attrs.empty

/-- grph.node[v]\x7b'count'\x7d += 1 (only reached when counting is enabled, so
the count key is present). -/
def bumpCount (a : Attrs) : Attrs :=
  { a with count := a.count.map (· + 1) }

def Graph.bumpNodeCount (g : Graph) (v : NodeVal) : Graph :=
  ⟨g.nodes.map (fun p => if p.1 == v then (p.1, bumpCount p.2) else p), g.edges⟩

def edgeKeyMatch (a b : NodeVal) (e : NodeVal × NodeVal × Option Nat) : Bool :=
  (e.1 == a && e.2.1 == b) || (e.1 == b && e.2.1 == a)

def Graph.hasEdge (g : Graph) (a b : NodeVal) : Bool :=
  g.edges.any (edgeKeyMatch a b)

/-- The weighted update idiom `try: grph[a][b]\x7b'weight'\x7d += 1 except
KeyError: grph.add_edge(a, b, weight=1)`: an existing weighted edge is
incremented; an existing weightless edge hits KeyError on the weight key and
add_edge then sets its weight to 1; a missing edge is created with weight 1. -/
def Graph.incEdgeWeightOrAdd (g : Graph) (a b : NodeVal) : Graph :=
  let g := (g.ensureNode a).ensureNode b
  if g.hasEdge a b then
    ⟨g.nodes, g.edges.map (fun e =>
      if edgeKeyMatch a b e then
        (e.1, e.2.1, match e.2.2 with | some w => some (w + 1) | Option.none => some 1)
      else e)⟩
  else ⟨g.nodes, g.edges ++ [(a, b, some 1)]⟩

/-- grph.add_edge(a, b) with no attributes: a no-op on an existing edge. -/
def Graph.addEdgePlain (g : Graph) (a b : NodeVal) : Graph :=
  let g := (g.ensureNode a).ensureNode b
  if g.hasEdge a b then g else ⟨g.nodes, g.edges ++ [(a, b, Option.none)]⟩

/-- grph.add_edge(a, b, attr_dict=data) where data is the weight entry of a
copied edge dictionary: an existing edge has its weight overwritten when data
carries one (dict.update), a missing edge is created with data. -/
def Graph.addEdgeWithData (g : Graph) (a b : NodeVal) (data : Option Nat) : Graph :=
  let g := (g.ensureNode a).ensureNode b
  if g.hasEdge a b then
    ⟨g.nodes, g.edges.map (fun e =>
      if edgeKeyMatch a b e then
        (e.1, e.2.1, match data with | some w => some w | Option.none => e.2.2)
      else e)⟩
  else ⟨g.nodes, g.edges ++ [(a, b, data)]⟩

/-- G.edges_iter(v, data=True): the edges incident to v in insertion order,
each as the far endpoint paired with the edge data; a self-loop is yielded
once. -/
def Graph.edgesIter (g : Graph) (v : NodeVal) : List (NodeVal × Option Nat) :=
  g.edges.filterMap (fun e =>
    if e.1 == v then some (e.2.1, e.2.2)
    else if e.2.1 == v then some (e.1, e.2.2)
    else Option.none)

/-- makeNodeTuple (recordCollection.py line 1744), specialised to
coreValues = [] and coreCitesDict = None (no claim enables detailedCore or
coreOnly): the node id together with its initial attribute dictionary. -/
def makeNodeTuple (c : Citation) (idVal : NodeVal) (nodeInfo fullInfo : Bool)
    (nt : NodeType) (count : Bool) : NodeVal × Attrs :=
  let info : Option NodeVal :=
    if nodeInfo then
      some (match nt with
        | .full => .str c.allButDOI
        | .journal =>
            if c.journalArticle then .str c.fullJournalName else .str ("None".toList)
        | .original => .str c.strForm
        | _ => idVal)
    else Option.none
  (idVal, { info := info
            fullCite := if fullInfo then some c.strForm else Option.none
            count := if count then some 1 else Option.none
            inCore := Option.none })

/-- The inner pair loop of addToNetwork for one outer id: weighted mode
updates the graph immediately, unweighted mode only collects missing edges
(added in one batch at the end, so the membership tests do not see them). -/
def innerPairs (g : Graph) (outerID : NodeVal) (rest : List NodeVal) (weighted : Bool) :
    Graph × List (NodeVal × NodeVal) :=
  rest.foldl (fun p innerID =>
    if weighted then (p.1.incEdgeWeightOrAdd outerID innerID, p.2)
    else if ¬p.1.hasEdge outerID innerID then (p.1, p.2 ++ [(outerID, innerID)])
    else p) (g, [])

def outerPairs (g : Graph) (l : List NodeVal) (weighted : Bool) :
    Graph × List (NodeVal × NodeVal) :=
  match l with
  | [] => (g, [])
  | x :: rest =>
    let p := innerPairs g x rest weighted
    let q := outerPairs p.1 rest weighted
    (q.1, p.2 ++ q.2)

/-- addToNetwork (recordCollection.py line 1696), specialised to headNd = None
(the co-citation use; the head-node branch belongs to citationNetwork) and to
coreValues = [], coreCitesDict = None: insert or count every citation node,
then connect every pairwise combination. -/
def addToNetwork (g : Graph) (nds : List Citation) (count weighted : Bool)
    (nt : NodeType) (nodeInfo fullInfo : Bool) : Graph :=
  let step := nds.foldl (fun (p : Graph × List NodeVal) n =>
    let nID := makeID n nt
    let g := p.1
    let g :=
      if ¬g.hasNode nID then
        let t := makeNodeTuple n nID nodeInfo fullInfo nt count
        g.addNode t.1 t.2
      else if count then g.bumpNodeCount nID
      else g
    (g, p.2 ++ [nID])) (g, [])
  let g1 := step.1
  let idList := step.2
  let p :=
    if idList.length > 1 then outerPairs g1 idList weighted else (g1, [])
  p.2.foldl (fun g e => g.addEdgePlain e.1 e.2) p.1

/-! ## Core Expansion: expandRecs -/

/-- The if/elif head of one inner step of expandRecs (lines 1818-1829): a
missing c2 is created with the attributes of c1 and linked to it, an existing
pair is re-weighted when weighting is on. -/
def expandPre (g : Graph) (c1 c2 : NodeVal) (weighted : Bool) : Graph :=
  if ¬g.hasNode c2 then
    (g.addNode c2 (g.nodeAttrs c1)).addEdgeWithData c1 c2
      (if weighted then some 1 else Option.none)
  else if weighted then g.incEdgeWeightOrAdd c1 c2
  else g

/-- One inner step of expandRecs (recordCollection.py lines 1818-1831) for the
pair (c1, c2): the if/elif head, then every edge incident to c1 is copied onto
c2 (lines 1830-1831).  The edge list is read at entry of the copy loop; on the
traces exercised here the adjacency of c1 is never resized during the Python
iteration, so this matches the source. -/
def expandStep (g : Graph) (c1 c2 : NodeVal) (weighted : Bool) : Graph :=
  ((expandPre g c1 c2 weighted).edgesIter c1).foldl
    (fun g pr => g.addEdgeWithData c2 pr.1 pr.2) (expandPre g c1 c2 weighted)

/-- The enumerate loop of expandRecs: each id is the outer id for all later
ids, but only when it is currently a node of the graph. -/
def expandOuter (g : Graph) (l : List NodeVal) (weighted : Bool) : Graph :=
  match l with
  | [] => g
  | c1 :: rest =>
    expandOuter
      (if g.hasNode c1 then rest.foldl (fun g c2 => expandStep g c1 c2 weighted) g else g)
      rest weighted

/-- expandRecs (recordCollection.py line 1811): for every record of the
collection, expand its per-author citation identities (fullCiteList). -/
def expandRecs (g : Graph) (recs : List Record) (nt : NodeType) (weighted : Bool) : Graph :=
  recs.foldl (fun g R =>
    if (R.multiCites.map (fun c => makeID c nt)).length > 1 then
      expandOuter g (R.multiCites.map (fun c => makeID c nt)) weighted
    else g) g

/-- coCiteNetwork (recordCollection.py line 739), specialised to
detailedCore = None and coreOnly = False (so coreCites and coreCitesDict are
None): fold every record with a non-empty citation list through filterCites
and addToNetwork, then optionally expand the core.  The record iteration order
of the underlying Python set is explicit here as the list order. -/
def coCiteNetwork (recs : List Record) (dropAnon : Bool) (nt : NodeType)
    (nodeInfo fullInfo weighted dropNonJournals count : Bool) (keyWords : List Str)
    (expandedCore : Bool) : Graph :=
  let g := recs.foldl (fun g R =>
    if R.citations.isEmpty then g
    else addToNetwork g
      (filterCites R.citations nt dropAnon dropNonJournals keyWords Option.none)
      count weighted nt nodeInfo fullInfo) Graph.empty
  if expandedCore then expandRecs g recs nt weighted else g

/-! ## Network Builder: coAuthNetwork

networkx 1.x add_node(n, attr_dict=d) stores the dictionary d itself as the
node attribute dictionary of a new node n.  coAuthNetwork builds one
detailedInfo dictionary per record (attributeMaker is called once, line 711)
and passes that same dictionary to add_node for every author of the record
that is not yet in the graph, so all authors first seen in the same record
share one dictionary, and grph.node[a]\x7b'count'\x7d += 1 on any of them
increments it for all of them.  The shared dictionaries are modelled as cells:
each record allocates one cell holding count 1, nodes are bound to a cell, and
increments bump the bound cell.  This embedding fixes the defaults
detailedInfo = False, count = True, weighted = True, dropNonJournals = False. -/

structure AuthGraph where
  nodes : List (Str × Nat)
  cells : List Nat
  edges : List (Str × Str × Nat)
deriving DecidableEq

def AuthGraph.hasNode (g : AuthGraph) (a : Str) : Bool :=
  g.nodes.any (fun p => p.1 == a)

def AuthGraph.bindNode (g : AuthGraph) (a : Str) (cell : Nat) : AuthGraph :=
  { g with nodes := g.nodes ++ [(a, cell)] }

/-- grph.node[a]\x7b'count'\x7d += 1: bump the cell the node is bound to. -/
def AuthGraph.bump (g : AuthGraph) (a : Str) : AuthGraph :=
  match g.nodes.find? (fun p => p.1 == a) with
  | some p => { g with cells := g.cells.set p.2 (g.cells.getD p.2 0 + 1) }
  | Option.none => g

def authEdgeMatch (a b : Str) (e : Str × Str × Nat) : Bool :=
  (e.1 == a && e.2.1 == b) || (e.1 == b && e.2.1 == a)

/-- The weighted edge update of coAuthNetwork (lines 723-726). -/
def AuthGraph.incEdge (g : AuthGraph) (a b : Str) : AuthGraph :=
  if g.edges.any (authEdgeMatch a b) then
    { g with edges := g.edges.map (fun e =>
        if authEdgeMatch a b e then (e.1, e.2.1, e.2.2 + 1) else e) }
  else { g with edges := g.edges ++ [(a, b, 1)] }

/-- The node insert-or-count idiom of coAuthNetwork: a new author is bound to
the shared cell of the current record, an existing author bumps its own
cell. -/
def coAuthTouch (g : AuthGraph) (cell : Nat) (a : Str) : AuthGraph :=
  if ¬g.hasNode a then g.bindNode a cell else g.bump a

def coAuthInner (g : AuthGraph) (cell : Nat) (a1 : Str) (rest : List Str) : AuthGraph :=
  rest.foldl (fun g a2 => (coAuthTouch g cell a2).incEdge a1 a2) g

def coAuthOuter (g : AuthGraph) (cell : Nat) (l : List Str) : AuthGraph :=
  match l with
  | [] => g
  | a1 :: rest => coAuthOuter (coAuthInner (coAuthTouch g cell a1) cell a1 rest) cell rest

/-- Processing of one record by coAuthNetwork (lines 702-734): allocate the
record attribute dictionary, then the enumerate loop over the author list (or
the single-author branch). -/
def coAuthRecordStep (g : AuthGraph) (R : Record) : AuthGraph :=
  match R.authorsFull with
  | [] => g
  | [a1] =>
    let cell := g.cells.length
    let g := { g with cells := g.cells ++ [1] }
    coAuthTouch g cell a1
  | authsList =>
    let cell := g.cells.length
    let g := { g with cells := g.cells ++ [1] }
    coAuthOuter g cell authsList

/-- coAuthNetwork (recordCollection.py line 640) at its default arguments,
with the set iteration order made explicit as the list order. -/
def coAuthNetwork (recs : List Record) : AuthGraph :=
  recs.foldl coAuthRecordStep ⟨[], [], []⟩

/-- The count attribute of an author node: the value of its bound cell. -/
def AuthGraph.countOf (g : AuthGraph) (a : Str) : Option Nat :=
  (g.nodes.find? (fun p => p.1 == a)).map (fun p => g.cells.getD p.2 0)

/-! ## yearSplit and localCiteStats -/

/-- yearSplit (recordCollection.py line 973): keep the records whose year lies
in the inclusive range; a missing year raises TypeError inside the comparison,
which is swallowed when dropMissingYears and re-raised otherwise.  The
function is pure: the receiving collection is read, never written. -/
def yearSplit : List Record → Int → Int → Bool → Except PyErr (List Record)
  | [], _, _, _ => .ok []
  | R :: rest, s, e, dmy =>
    match R.year with
    | some y =>
      match yearSplit rest s e dmy with
      | .ok l => .ok (if s ≤ y ∧ y ≤ e then R :: l else l)
      | .error er => .error er
    | Option.none => if dmy then yearSplit rest s e dmy else .error PyErr.typeError

/-- The year-range predicate of yearSplit. -/
def yearInRange (s e : Int) (R : Record) : Bool :=
  match R.year with
  | some y => decide (s ≤ y ∧ y ≤ e)
  | Option.none => false

/-- Keys of the localCiteStats frequency dictionary: a whole citation, or a
collapsed field value. -/
inductive StatKey
  | cit (c : Citation)
  | val (v : NodeVal)
deriving DecidableEq

/-- Key equality as the Python dict uses it.  Whole-citation keys compare with
the Citation equality of citation.py, which is not under the analysed source,
so it is abstracted as the parameter citBeq; collapsed field values compare as
values. -/
def keyBeq (citBeq : Citation → Citation → Bool) : StatKey → StatKey → Bool
  | .cit a, .cit b => citBeq a b
  | .val a, .val b => a == b
  | _, _ => false

def bumpKey (citBeq : Citation → Citation → Bool) (m : List (StatKey × Nat))
    (k : StatKey) : List (StatKey × Nat) :=
  if m.any (fun p => keyBeq citBeq p.1 k) then
    m.map (fun p => if keyBeq citBeq p.1 k then (p.1, p.2 + 1) else p)
  else m ++ [(k, 1)]

def keyTypesLst : List Str :=
  ["citation".toList, "journal".toList, "year".toList, "author".toList]

/-- getattr(c, keyType) for the collapsed key types; only evaluated after
keyType passed the keyTypesLst membership check and the citation branch. -/
def statGetattr (c : Citation) (kt : Str) : NodeVal :=
  if kt = "journal".toList then optStr c.journal
  else if kt = "year".toList then optInt c.year
  else if kt = "author".toList then optStr c.author
  else NodeVal.nil

/-- The per-citation tally step of localCiteStats: a whole-citation key, or
the collapsed field value, skipped when it is None (line 1476). -/
def statStepC (citBeq : Citation → Citation → Bool) (keyType : Str)
    (m : List (StatKey × Nat)) (c : Citation) : List (StatKey × Nat) :=
  if keyType = "citation".toList then bumpKey citBeq m (StatKey.cit c)
  else
    let cVal := statGetattr c keyType
    if cVal = NodeVal.nil then m
    else bumpKey citBeq m (StatKey.val cVal)

/-- The per-record step of localCiteStats: records with a falsy citations
value contribute nothing. -/
def statStepR (citBeq : Citation → Citation → Bool) (keyType : Str)
    (m : List (StatKey × Nat)) (R : Record) : List (StatKey × Nat) :=
  if R.citations.isEmpty then m
  else R.citations.foldl (statStepC citBeq keyType) m

/-- localCiteStats (recordCollection.py line 1433): an unrecognized keyType
raises TypeError (line 1463); otherwise every citation of every record is
tallied. -/
def localCiteStats (citBeq : Citation → Citation → Bool) (recs : List Record)
    (keyType : Str) : Except PyErr (List (StatKey × Nat)) :=
  if keyType ∉ keyTypesLst then .error PyErr.typeError
  else .ok (recs.foldl (statStepR citBeq keyType) [])

/-! ## Theorems -/

theorem dictUpdate_nil (b : List (Str × Str)) : dictUpdate [] b = b := by
  simp [dictUpdate, List.lookup]

theorem orRC_recs (A B : RecordCollection) : (orRC A B).recs = A.recs ∪ B.recs := by
  unfold orRC; split <;> rfl

theorem andRC_recs (A B : RecordCollection) : (andRC A B).recs = A.recs ∩ B.recs := by
  unfold andRC; split <;> rfl

theorem subRC_recs (A B : RecordCollection) : (subRC A B).recs = A.recs \ B.recs := by
  unfold subRC; split <;> rfl

/-- C1 counterexample: for a bad collection A carrying an error entry and a
clean collection B, the pure union drops the errors of A, so the result error
map is not the union of the two error maps.  (The source builds the result
with a fresh empty errors dict and only updates it from `other`.) -/
def c1A : RecordCollection := ⟨∅, true, [("f".toList, "e".toList)]⟩

def c1B : RecordCollection := ⟨∅, false, []⟩

/-- Claim C1 is false as stated: at the concrete bad collection `c1A` and
clean collection `c1B`, the union via __or__ has an errors map different from
the union of the operand error maps (it loses the errors of A). -/
theorem claim_C1_counterexample :
    ¬((orRC c1A c1B).bad = (c1A.bad || c1B.bad) ∧
      (orRC c1A c1B).errors = dictUpdate c1A.errors c1B.errors) := by
  decide

/-- Claim C1, amended: for every pair of RecordCollections, each pure
combination (__or__, __and__, __sub__, __xor__) returns a collection whose bad
flag is the OR of the operand flags and whose errors map is B.errors when
either operand is bad and empty otherwise (A.errors is dropped); each in-place
variant keeps A.errors, updated with B.errors when either operand is bad. -/
theorem claim_C1_amended (A B : RecordCollection) :
    ((orRC A B).bad = (A.bad || B.bad) ∧
      (orRC A B).errors = (if A.bad || B.bad then B.errors else []) ∧
      (orRC A B).recs = A.recs ∪ B.recs) ∧
    ((andRC A B).bad = (A.bad || B.bad) ∧
      (andRC A B).errors = (if A.bad || B.bad then B.errors else []) ∧
      (andRC A B).recs = A.recs ∩ B.recs) ∧
    ((subRC A B).bad = (A.bad || B.bad) ∧
      (subRC A B).errors = (if A.bad || B.bad then B.errors else []) ∧
      (subRC A B).recs = A.recs \ B.recs) ∧
    ((xorRC A B).bad = (A.bad || B.bad) ∧
      (xorRC A B).errors = (if A.bad || B.bad then B.errors else []) ∧
      (xorRC A B).recs = (A.recs \ B.recs) ∪ (B.recs \ A.recs)) ∧
    ((iorRC A B).bad = (A.bad || B.bad) ∧
      (iorRC A B).errors =
        (if A.bad || B.bad then dictUpdate A.errors B.errors else A.errors) ∧
      (iorRC A B).recs = A.recs ∪ B.recs) ∧
    ((iandRC A B).bad = (A.bad || B.bad) ∧
      (iandRC A B).errors =
        (if A.bad || B.bad then dictUpdate A.errors B.errors else A.errors) ∧
      (iandRC A B).recs = A.recs ∩ B.recs) ∧
    ((isubRC A B).bad = (A.bad || B.bad) ∧
      (isubRC A B).errors =
        (if A.bad || B.bad then dictUpdate A.errors B.errors else A.errors) ∧
      (isubRC A B).recs = A.recs \ B.recs) ∧
    ((ixorRC A B).bad = (A.bad || B.bad) ∧
      (ixorRC A B).errors =
        (if A.bad || B.bad then dictUpdate A.errors B.errors else A.errors) ∧
      (ixorRC A B).recs = (A.recs \ B.recs) ∪ (B.recs \ A.recs)) := by
  cases hA : A.bad <;> cases hB : B.bad <;>
    simp [orRC, andRC, subRC, xorRC, iorRC, iandRC, isubRC, ixorRC,
      dictUpdate_nil, hA, hB]

/-- C9: the set algebra laws hold on the record sets, with collection
equality comparing exactly the record sets (__eq__): union is commutative,
intersection is contained in both operands, self-difference is empty, and
union with the empty collection is the identity. -/
theorem claim_C9 (A B : RecordCollection) :
    eqRC (orRC A B) (orRC B A) ∧
    (andRC A B).recs ⊆ A.recs ∧ (andRC A B).recs ⊆ B.recs ∧
    (subRC A A).recs = ∅ ∧
    eqRC (orRC A emptyRC) A := by
  refine ⟨?_, ?_, ?_, ?_, ?_⟩
  · show (orRC A B).recs = (orRC B A).recs
    rw [orRC_recs, orRC_recs, Finset.union_comm]
  · rw [andRC_recs]; exact Finset.inter_subset_left
  · rw [andRC_recs]; exact Finset.inter_subset_right
  · rw [subRC_recs]; exact Finset.sdiff_self A.recs
  · show (orRC A emptyRC).recs = A.recs
    rw [orRC_recs]; exact Finset.union_empty A.recs

def rec10a : Record := ⟨"a".toList, [], [], Option.none, false, []⟩

def rec10b : Record := ⟨"b".toList, [], [], Option.none, false, []⟩

def rc10A : RecordCollection := ⟨{rec10a}, false, []⟩

def rc10B : RecordCollection := ⟨{rec10b}, false, []⟩

/-- C10: __le__ and __ge__ compare only the numbers of records, so they are
not the subset relation: the disjoint equal-size collections rc10A and rc10B
satisfy both comparisons while __eq__ rejects them. -/
theorem claim_C10 :
    (∀ A B : RecordCollection, leRC A B ↔ A.recs.card ≤ B.recs.card) ∧
    (∀ A B : RecordCollection, geRC A B ↔ A.recs.card ≥ B.recs.card) ∧
    rc10A.recs ∩ rc10B.recs = ∅ ∧
    leRC rc10A rc10B ∧ geRC rc10A rc10B ∧ ¬eqRC rc10A rc10B := by
  refine ⟨fun A B => Iff.rfl, fun A B => Iff.rfl, by decide, ?_, ?_, ?_⟩
  · show rc10A.recs.card ≤ rc10B.recs.card
    decide
  · show rc10A.recs.card ≥ rc10B.recs.card
    decide
  · show ¬rc10A.recs = rc10B.recs
    decide

theorem yearSplit_dropTrue (s e : Int) :
    ∀ recs : List Record, yearSplit recs s e true = .ok (recs.filter (yearInRange s e))
  | [] => rfl
  | R :: rest => by
    have ih := yearSplit_dropTrue s e rest
    cases hy : R.year with
    | none => simp [yearSplit, hy, ih, yearInRange, List.filter_cons]
    | some y =>
      by_cases h : s ≤ y ∧ y ≤ e <;>
        simp [yearSplit, hy, ih, yearInRange, List.filter_cons, h]

theorem yearSplit_noneMissing (s e : Int) :
    ∀ recs : List Record, (∀ R ∈ recs, R.year ≠ Option.none) →
      yearSplit recs s e false = .ok (recs.filter (yearInRange s e))
  | [], _ => rfl
  | R :: rest, h => by
    have ih := yearSplit_noneMissing s e rest (fun r hr => h r (List.mem_cons_of_mem R hr))
    cases hy : R.year with
    | none => exact absurd hy (h R (List.mem_cons_self R rest))
    | some y =>
      by_cases hb : s ≤ y ∧ y ≤ e <;>
        simp [yearSplit, hy, ih, yearInRange, List.filter_cons, hb]

theorem yearSplit_someMissing (s e : Int) :
    ∀ recs : List Record, (∃ R ∈ recs, R.year = Option.none) →
      yearSplit recs s e false = .error PyErr.typeError
  | [], h => absurd h (by simp)
  | R :: rest, h => by
    cases hy : R.year with
    | none => simp [yearSplit, hy]
    | some y =>
      have hrest : ∃ r ∈ rest, r.year = Option.none := by
        obtain ⟨r, hr, hnone⟩ := h
        rcases List.mem_cons.mp hr with rfl | hr2
        · exact absurd hy (by rw [hnone]; exact fun h => nomatch h)
        · exact ⟨r, hr2, hnone⟩
      simp [yearSplit, hy, yearSplit_someMissing s e rest hrest]

/-- C7: yearSplit with startYear ≤ endYear returns exactly the records whose
year lies in the inclusive range (the function is pure, so the original
collection is untouched); with the drop-missing option a missing year is
silently excluded, without it the call fails with TypeError (the spec calls
this error class TypeMismatch). -/
theorem claim_C7 (recs : List Record) (s e : Int) (_hse : s ≤ e) :
    yearSplit recs s e true = .ok (recs.filter (yearInRange s e)) ∧
    ((∀ R ∈ recs, R.year ≠ Option.none) →
      yearSplit recs s e false = .ok (recs.filter (yearInRange s e))) ∧
    ((∃ R ∈ recs, R.year = Option.none) →
      yearSplit recs s e false = .error PyErr.typeError) :=
  ⟨yearSplit_dropTrue s e recs, yearSplit_noneMissing s e recs,
    yearSplit_someMissing s e recs⟩

def wr71 : Record := ⟨"w1".toList, [], [], some 5, false, []⟩

def wr72 : Record := ⟨"w2".toList, [], [], Option.none, false, []⟩

/-- C2, amended: makeID does map a citation with a missing requested field to
the None sentinel, but the network builders never pool such citations into a
shared node: filterCites (applied to every citation list in coCiteNetwork and
citationNetwork) drops any citation whose requested field is falsy, so the
sentinel never reaches the graph. -/
theorem claim_C2_amended (c : Citation) (nt : NodeType)
    (hnt : nt = NodeType.author ∨ nt = NodeType.journal ∨ nt = NodeType.year)
    (hmiss : getattrNV c nt = NodeVal.nil) :
    makeID c nt = NodeVal.nil ∧
    ∀ (cites : List Citation) (dA dNJ : Bool) (kws : List Str)
      (cc : Option (Citation → Bool)), c ∉ filterCites cites nt dA dNJ kws cc := by
  have hfull : nt ≠ NodeType.full := by
    rcases hnt with h | h | h <;> subst h <;> exact fun hx => nomatch hx
  constructor
  · simp [makeID, hfull, hmiss]
  · intro cites dA dNJ kws cc hmem
    have hkept := (List.mem_filter.mp hmem).2
    unfold citeKept at hkept
    rw [if_pos ⟨hfull, by rw [hmiss]; rfl⟩] at hkept
    exact nomatch hkept

def c2X : Citation :=
  ⟨some "X".toList, Option.none, Option.none, Option.none, Option.none,
    "X".toList, "X".toList, "X".toList, "X".toList, false, true⟩

def c2M : Citation :=
  { c2X with author := Option.none, original := "M".toList, strForm := "M".toList }

def r2c : Record := ⟨"r".toList, [], [c2M, c2X], Option.none, false, []⟩

/-- Claim C2 is false as stated: the citation c2M has no author, its
author-mode identity is the None sentinel, yet coCiteNetwork in author mode
excludes it from the graph instead of pooling it under the sentinel node. -/
theorem claim_C2_counterexample :
    makeID c2M NodeType.author = NodeVal.nil ∧
    Graph.hasNode
      (coCiteNetwork [r2c] true NodeType.author true false true false true [] false)
      (makeID c2M NodeType.author) = false := by
  decide

/-- Witness for C2 amended at the concrete authorless citation c2M. -/
theorem claim_C2_amended_witness :
    makeID c2M NodeType.author = NodeVal.nil ∧
    c2M ∉ filterCites [c2M, c2X] NodeType.author true false [] Option.none :=
  ⟨(claim_C2_amended c2M NodeType.author (Or.inl rfl) rfl).1,
    (claim_C2_amended c2M NodeType.author (Or.inl rfl) rfl).2 [c2M, c2X] true false []
      Option.none⟩

/-- C5: with a non-empty keyword list, a citation whose rendered text
contains some keyword as a case-insensitive substring is excluded by
filterCites, and a citation in the input that passes every other enabled
check and contains no keyword is kept. -/
theorem claim_C5 (cites : List Citation) (c : Citation) (nt : NodeType)
    (dA dNJ : Bool) (kws : List Str) (cc : Option (Citation → Bool))
    (hkw : kws ≠ []) :
    ((∃ k ∈ kws, isSubstr (k.map Char.toUpper) (c.strForm.map Char.toUpper) = true) →
      c ∉ filterCites cites nt dA dNJ kws cc) ∧
    (c ∈ cites →
      (nt = NodeType.full ∨ (getattrNV c nt).falsy = false) →
      (dNJ = true → c.journalArticle = true) →
      (dA = true → c.anonymous = false) →
      (∀ f, cc = some f → f c = true) →
      (∀ k ∈ kws, isSubstr (k.map Char.toUpper) (c.strForm.map Char.toUpper) = false) →
      c ∈ filterCites cites nt dA dNJ kws cc) := by
  constructor
  · intro hfound hmem
    have hk : kwFound kws c.strForm = true := by
      obtain ⟨k, hkmem, hsub⟩ := hfound
      exact List.any_eq_true.mpr ⟨k, hkmem, hsub⟩
    have hkept := (List.mem_filter.mp hmem).2
    simp [citeKept, hkw, hk] at hkept
  · intro hmem h1 h2 h3 h4 h5
    refine List.mem_filter.mpr ⟨hmem, ?_⟩
    have hkf : kwFound kws c.strForm = false := by
      unfold kwFound
      rw [List.any_eq_false]
      exact fun k hk => by simp [h5 k hk]
    have hc1 : ¬(nt ≠ NodeType.full ∧ (getattrNV c nt).falsy = true) := by
      rcases h1 with h | h
      · exact fun hc => hc.1 h
      · exact fun hc => by rw [h] at hc; exact nomatch hc.2
    have hc2 : ¬(dNJ = true ∧ ¬c.journalArticle = true) := fun hc => hc.2 (h2 hc.1)
    have hc3 : ¬(dA = true ∧ c.anonymous = true) := by
      intro hc
      rw [h3 hc.1] at hc
      exact nomatch hc.2
    unfold citeKept
    rw [if_neg hc1, if_neg hc2, if_neg hc3]
    cases hcc : cc with
    | none => simp [hkw, hkf]
    | some f => simp [h4 f hcc, hkw, hkf]

def c5K : Citation :=
  { c2X with original := "NATURE V5".toList, strForm := "NATURE V5".toList }

def c5C : Citation :=
  { c2X with original := "SCIENCE V7".toList, strForm := "SCIENCE V7".toList }

/-- Witness for C5 at a concrete keyword list: the citation whose rendered
form contains the keyword is excluded, the clean one is kept. -/
theorem claim_C5_witness :
    (["nature".toList] ≠ ([] : List Str)) ∧
    c5K ∉ filterCites [c5K, c5C] NodeType.full true false ["nature".toList] Option.none ∧
    c5C ∈ filterCites [c5K, c5C] NodeType.full true false ["nature".toList] Option.none :=
  ⟨by decide,
    (claim_C5 [c5K, c5C] c5K NodeType.full true false ["nature".toList] Option.none
        (by decide)).1 (by decide),
    (claim_C5 [c5K, c5C] c5C NodeType.full true false ["nature".toList] Option.none
        (by decide)).2 (by decide) (Or.inl rfl) (by decide) (fun _ => by decide)
      (fun f hf => nomatch hf) (by decide)⟩

/-- Witness for C7 at a concrete two-record collection, one record inside the
range and one with a missing year. -/
theorem claim_C7_witness :
    (0 : Int) ≤ 10 ∧
    (yearSplit [wr71, wr72] 0 10 true = .ok ([wr71, wr72].filter (yearInRange 0 10)) ∧
     ((∀ R ∈ [wr71, wr72], R.year ≠ Option.none) →
       yearSplit [wr71, wr72] 0 10 false = .ok ([wr71, wr72].filter (yearInRange 0 10))) ∧
     ((∃ R ∈ [wr71, wr72], R.year = Option.none) →
       yearSplit [wr71, wr72] 0 10 false = .error PyErr.typeError)) :=
  ⟨by decide, claim_C7 [wr71, wr72] 0 10 (by decide)⟩

/-- A record with the citations whose collapsed field is missing removed;
used to state that localCiteStats skips exactly those citations. -/
def dropMissingCites (kt : Str) (R : Record) : Record :=
  { R with citations := R.citations.filter (fun c => statGetattr c kt != NodeVal.nil) }

theorem statStepC_skip (citBeq : Citation → Citation → Bool) (kt : Str)
    (hkt : kt ≠ "citation".toList) :
    ∀ (cs : List Citation) (m : List (StatKey × Nat)),
      cs.foldl (statStepC citBeq kt) m
        = (cs.filter (fun c => statGetattr c kt != NodeVal.nil)).foldl
            (statStepC citBeq kt) m
  | [], _ => rfl
  | c :: cs, m => by
    by_cases h : statGetattr c kt = NodeVal.nil
    · have hf : (statGetattr c kt != NodeVal.nil) = false := by simp [h]
      have hstep : statStepC citBeq kt m c = m := by
        simp only [statStepC]
        rw [if_neg hkt, if_pos h]
      rw [List.filter_cons, hf, List.foldl_cons, hstep]
      · exact statStepC_skip citBeq kt hkt cs m
    · have hf : (statGetattr c kt != NodeVal.nil) = true := by simp [h]
      rw [List.filter_cons, hf, if_pos rfl, List.foldl_cons, List.foldl_cons]
      exact statStepC_skip citBeq kt hkt cs (statStepC citBeq kt m c)

theorem statStepR_skip (citBeq : Citation → Citation → Bool) (kt : Str)
    (hkt : kt ≠ "citation".toList) (m : List (StatKey × Nat)) (R : Record) :
    statStepR citBeq kt m R = statStepR citBeq kt m (dropMissingCites kt R) := by
  unfold statStepR dropMissingCites
  by_cases h : R.citations.isEmpty
  · rw [List.isEmpty_iff.mp h]
    simp
  · rw [if_neg (by simp [h]), statStepC_skip citBeq kt hkt]
    by_cases h2 : (R.citations.filter (fun c => statGetattr c kt != NodeVal.nil)).isEmpty
    · rw [List.isEmpty_iff.mp h2]
      simp
    · simp [h2]

theorem foldl_fun_eq {α β : Type} (f g : β → α → β) (h : ∀ b a, f b a = g b a) :
    ∀ (l : List α) (b : β), l.foldl f b = l.foldl g b
  | [], _ => rfl
  | a :: l, b => by rw [List.foldl_cons, List.foldl_cons, h, foldl_fun_eq f g h l]

def cb8 : Citation → Citation → Bool := fun _ _ => false

/-- Claim C8 is false as stated: at the unrecognized key type "zzz",
localCiteStats raises Python TypeError (the class the spec calls
TypeMismatch), not the RCValueError class the spec calls InvalidArgument and
uses for the analogous unknown-nodeType error of the network builders. -/
theorem claim_C8_counterexample :
    localCiteStats cb8 [] ("zzz".toList) = .error PyErr.typeError ∧
    ¬localCiteStats cb8 [] ("zzz".toList) = .error PyErr.rcValueError := by
  have h1 : localCiteStats cb8 [] ("zzz".toList) = .error PyErr.typeError := by
    unfold localCiteStats
    rw [if_pos (by decide)]
  refine ⟨h1, ?_⟩
  rw [h1]
  simp

/-- C8, amended: localCiteStats fails with TypeError (TypeMismatch) for a key
type outside citation, journal, year, author, and for the recognized
collapsing key types its result is unchanged when every citation whose
requested field is missing is removed first, i.e. such citations are skipped
rather than zero-counted. -/
theorem claim_C8_amended (citBeq : Citation → Citation → Bool) (recs : List Record)
    (kt : Str) :
    (kt ∉ keyTypesLst → localCiteStats citBeq recs kt = .error PyErr.typeError) ∧
    (kt ∈ ["journal".toList, "year".toList, "author".toList] →
      localCiteStats citBeq recs kt
        = localCiteStats citBeq (recs.map (dropMissingCites kt)) kt) := by
  constructor
  · intro h
    unfold localCiteStats
    rw [if_pos h]
  · intro hmem
    have hkt : kt ≠ "citation".toList := by
      simp only [List.mem_cons, List.not_mem_nil, or_false] at hmem
      rcases hmem with h | h | h <;> subst h <;> decide
    have hin : kt ∈ keyTypesLst := by
      simp only [List.mem_cons, List.not_mem_nil, or_false] at hmem
      rcases hmem with h | h | h <;> subst h <;> decide
    unfold localCiteStats
    rw [if_neg (not_not_intro hin), if_neg (not_not_intro hin)]
    congr 1
    rw [List.foldl_map]
    exact foldl_fun_eq _ _ (fun m R => statStepR_skip citBeq kt hkt m R) recs []

def w8c : Citation :=
  ⟨Option.none, Option.none, Option.none, Option.none, Option.none, [], [], [], [],
    false, false⟩

def w8r : Record := ⟨"w8".toList, [], [w8c], Option.none, false, []⟩

/-- Witness for C8 amended at the year key type and a record containing one
citation with a missing year. -/
theorem claim_C8_amended_witness :
    "year".toList ∈ ["journal".toList, "year".toList, "author".toList] ∧
    localCiteStats cb8 [w8r] ("year".toList)
      = localCiteStats cb8 ([w8r].map (dropMissingCites ("year".toList))) ("year".toList) :=
  ⟨by decide, (claim_C8_amended cb8 [w8r] ("year".toList)).2 (by decide)⟩

/-! Monotonicity of the graph operations used by expandRecs: every operation
only adds nodes and edges or rewrites data in place, so node and edge counts
never decrease. -/

theorem ensureNode_edges (g : Graph) (v : NodeVal) : (g.ensureNode v).edges = g.edges := by
  unfold Graph.ensureNode Graph.addNode
  split <;> rfl

theorem ensureNode_nodes_le (g : Graph) (v : NodeVal) :
    g.nodes.length ≤ (g.ensureNode v).nodes.length := by
  unfold Graph.ensureNode Graph.addNode
  split
  · exact le_refl _
  · simp

theorem addNode_nodes_le (g : Graph) (v : NodeVal) (a : Attrs) :
    g.nodes.length ≤ (g.addNode v a).nodes.length := by
  simp [Graph.addNode]

theorem addNode_edges (g : Graph) (v : NodeVal) (a : Attrs) :
    (g.addNode v a).edges = g.edges := rfl

theorem addEdgeWithData_nodes (g : Graph) (a b : NodeVal) (data : Option Nat) :
    (g.addEdgeWithData a b data).nodes = ((g.ensureNode a).ensureNode b).nodes := by
  unfold Graph.addEdgeWithData
  split <;> (dsimp only []; split <;> rfl)

theorem addEdgeWithData_nodes_le (g : Graph) (a b : NodeVal) (data : Option Nat) :
    g.nodes.length ≤ (g.addEdgeWithData a b data).nodes.length := by
  rw [addEdgeWithData_nodes]
  exact le_trans (ensureNode_nodes_le g a) (ensureNode_nodes_le (g.ensureNode a) b)

theorem addEdgeWithData_edges_le (g : Graph) (a b : NodeVal) (data : Option Nat) :
    g.edges.length ≤ (g.addEdgeWithData a b data).edges.length := by
  have he : ((g.ensureNode a).ensureNode b).edges = g.edges := by
    rw [ensureNode_edges, ensureNode_edges]
  unfold Graph.addEdgeWithData
  split <;> (dsimp only []; split <;> simp [he])

theorem incEdgeWeightOrAdd_nodes (g : Graph) (a b : NodeVal) :
    (g.incEdgeWeightOrAdd a b).nodes = ((g.ensureNode a).ensureNode b).nodes := by
  unfold Graph.incEdgeWeightOrAdd
  dsimp only []
  split <;> rfl

theorem incEdgeWeightOrAdd_nodes_le (g : Graph) (a b : NodeVal) :
    g.nodes.length ≤ (g.incEdgeWeightOrAdd a b).nodes.length := by
  rw [incEdgeWeightOrAdd_nodes]
  exact le_trans (ensureNode_nodes_le g a) (ensureNode_nodes_le (g.ensureNode a) b)

theorem incEdgeWeightOrAdd_edges_le (g : Graph) (a b : NodeVal) :
    g.edges.length ≤ (g.incEdgeWeightOrAdd a b).edges.length := by
  have he : ((g.ensureNode a).ensureNode b).edges = g.edges := by
    rw [ensureNode_edges, ensureNode_edges]
  unfold Graph.incEdgeWeightOrAdd
  dsimp only []
  split <;> simp [he]

theorem foldl_le_of_step {α : Type} (m : Graph → Nat) (f : Graph → α → Graph)
    (h : ∀ g x, m g ≤ m (f g x)) :
    ∀ (l : List α) (g : Graph), m g ≤ m (l.foldl f g)
  | [], _ => le_refl _
  | x :: l, g => le_trans (h g x) (foldl_le_of_step m f h l (f g x))

theorem copyFold_nodes_le (g : Graph) (c2 : NodeVal) (l : List (NodeVal × Option Nat)) :
    g.nodes.length ≤
      (l.foldl (fun g pr => g.addEdgeWithData c2 pr.1 pr.2) g).nodes.length :=
  foldl_le_of_step (fun g => g.nodes.length) _
    (fun g pr => addEdgeWithData_nodes_le g c2 pr.1 pr.2) l g

theorem copyFold_edges_le (g : Graph) (c2 : NodeVal) (l : List (NodeVal × Option Nat)) :
    g.edges.length ≤
      (l.foldl (fun g pr => g.addEdgeWithData c2 pr.1 pr.2) g).edges.length :=
  foldl_le_of_step (fun g => g.edges.length) _
    (fun g pr => addEdgeWithData_edges_le g c2 pr.1 pr.2) l g

theorem expandPre_nodes_le (g : Graph) (c1 c2 : NodeVal) (w : Bool) :
    g.nodes.length ≤ (expandPre g c1 c2 w).nodes.length := by
  unfold expandPre
  split
  · exact le_trans (addNode_nodes_le g c2 (g.nodeAttrs c1))
      (addEdgeWithData_nodes_le _ c1 c2 _)
  · split
    · exact incEdgeWeightOrAdd_nodes_le g c1 c2
    · exact le_refl _

theorem expandPre_edges_le (g : Graph) (c1 c2 : NodeVal) (w : Bool) :
    g.edges.length ≤ (expandPre g c1 c2 w).edges.length := by
  unfold expandPre
  split
  · refine le_trans ?_ (addEdgeWithData_edges_le _ c1 c2 _)
    rw [addNode_edges]
  · split
    · exact incEdgeWeightOrAdd_edges_le g c1 c2
    · exact le_refl _

theorem expandStep_nodes_le (g : Graph) (c1 c2 : NodeVal) (w : Bool) :
    g.nodes.length ≤ (expandStep g c1 c2 w).nodes.length :=
  le_trans (expandPre_nodes_le g c1 c2 w)
    (copyFold_nodes_le (expandPre g c1 c2 w) c2 ((expandPre g c1 c2 w).edgesIter c1))

theorem expandStep_edges_le (g : Graph) (c1 c2 : NodeVal) (w : Bool) :
    g.edges.length ≤ (expandStep g c1 c2 w).edges.length :=
  le_trans (expandPre_edges_le g c1 c2 w)
    (copyFold_edges_le (expandPre g c1 c2 w) c2 ((expandPre g c1 c2 w).edgesIter c1))

theorem expandOuter_nodes_le (w : Bool) :
    ∀ (l : List NodeVal) (g : Graph), g.nodes.length ≤ (expandOuter g l w).nodes.length
  | [], _ => le_refl _
  | c1 :: rest, g => by
    unfold expandOuter
    refine le_trans ?_ (expandOuter_nodes_le w rest _)
    split
    · exact foldl_le_of_step (fun g => g.nodes.length) _
        (fun g c2 => expandStep_nodes_le g c1 c2 w) rest g
    · exact le_refl _

theorem expandOuter_edges_le (w : Bool) :
    ∀ (l : List NodeVal) (g : Graph), g.edges.length ≤ (expandOuter g l w).edges.length
  | [], _ => le_refl _
  | c1 :: rest, g => by
    unfold expandOuter
    refine le_trans ?_ (expandOuter_edges_le w rest _)
    split
    · exact foldl_le_of_step (fun g => g.edges.length) _
        (fun g c2 => expandStep_edges_le g c1 c2 w) rest g
    · exact le_refl _

theorem expandRecs_nodes_le (g : Graph) (recs : List Record) (nt : NodeType) (w : Bool) :
    g.nodes.length ≤ (expandRecs g recs nt w).nodes.length := by
  unfold expandRecs
  refine foldl_le_of_step (fun g => g.nodes.length) _ (fun g R => ?_) recs g
  split
  · exact expandOuter_nodes_le w _ g
  · exact le_refl _

theorem expandRecs_edges_le (g : Graph) (recs : List Record) (nt : NodeType) (w : Bool) :
    g.edges.length ≤ (expandRecs g recs nt w).edges.length := by
  unfold expandRecs
  refine foldl_le_of_step (fun g => g.edges.length) _ (fun g R => ?_) recs g
  split
  · exact expandOuter_edges_le w _ g
  · exact le_refl _

/-- C3, amended: core expansion never removes nodes or edges, so running
expandRecs twice yields at least the node and edge counts of running it once;
but it is not idempotent, a second run can strictly increase the counts (see
the counterexample). -/
theorem claim_C3_amended (g : Graph) (recs : List Record) (nt : NodeType) (w : Bool) :
    (expandRecs g recs nt w).nodes.length ≤
      (expandRecs (expandRecs g recs nt w) recs nt w).nodes.length ∧
    (expandRecs g recs nt w).edges.length ≤
      (expandRecs (expandRecs g recs nt w) recs nt w).edges.length :=
  ⟨expandRecs_nodes_le (expandRecs g recs nt w) recs nt w,
    expandRecs_edges_le (expandRecs g recs nt w) recs nt w⟩

def c3cA : Citation :=
  ⟨some "A".toList, Option.none, Option.none, Option.none, Option.none,
    "A".toList, "A".toList, "A".toList, "A".toList, false, true⟩

def c3cB : Citation := { c3cA with author := some "B".toList }

/-- A record whose two per-author identities are A and B, citing the work of
author B. -/
def r31 : Record :=
  ⟨"r31".toList, [], [c3cB], some 2000, false, [c3cA, c3cB]⟩

/-- A record with the same two author identities in the other order and no
citations. -/
def r32 : Record :=
  ⟨"r32".toList, [], [], Option.none, false, [c3cB, c3cA]⟩

/-- The author-mode co-citation graph of the two records: the single node B
with no edges. -/
def g3base : Graph :=
  coCiteNetwork [r31, r32] true NodeType.author true false true false true [] false

/-- Claim C3 is false as stated: on the builder-produced graph g3base, one run
of expandRecs gives 2 nodes and 2 edges, a second run adds a third edge (a
self-loop created while re-copying the edges of an expanded node), so node and
edge counts are not preserved by the second run. -/
theorem claim_C3_counterexample :
    ¬((expandRecs (expandRecs g3base [r31, r32] NodeType.author true)
          [r31, r32] NodeType.author true).nodes.length
        = (expandRecs g3base [r31, r32] NodeType.author true).nodes.length ∧
      (expandRecs (expandRecs g3base [r31, r32] NodeType.author true)
          [r31, r32] NodeType.author true).edges.length
        = (expandRecs g3base [r31, r32] NodeType.author true).edges.length) := by
  decide

def c4P : Record := ⟨"p".toList, ["a".toList, "b".toList], [], Option.none, false, []⟩

def c4Q : Record := ⟨"q".toList, ["a".toList], [], Option.none, false, []⟩

def c4S : Record := ⟨"s".toList, ["b".toList], [], Option.none, false, []⟩

/-- C4: evaluation of coAuthNetwork at the record set
\x7b[a,b], [a], [b]\x7d in two iteration orders.  Node set, edge set and edge
weights agree, but the per-node count attributes differ between the orders
(4 and 4 versus 2 and 3), because all authors first seen in the same record
share one attribute dictionary (networkx 1.x stores attr_dict by reference),
so count increments alias across those authors.  This contradicts both the
claim and the docstring of coAuthNetwork, which says count holds the number of
occurrences of the node. -/
theorem claim_C4_order_dependent_counts :
    (coAuthNetwork [c4P, c4Q, c4S]).countOf ("a".toList) = some 4 ∧
    (coAuthNetwork [c4P, c4Q, c4S]).countOf ("b".toList) = some 4 ∧
    (coAuthNetwork [c4Q, c4S, c4P]).countOf ("a".toList) = some 2 ∧
    (coAuthNetwork [c4Q, c4S, c4P]).countOf ("b".toList) = some 3 ∧
    (coAuthNetwork [c4P, c4Q, c4S]).edges = [("a".toList, "b".toList, 1)] ∧
    (coAuthNetwork [c4Q, c4S, c4P]).edges = [("a".toList, "b".toList, 1)] ∧
    (coAuthNetwork [c4P, c4Q, c4S]).nodes.map Prod.fst = ["a".toList, "b".toList] ∧
    (coAuthNetwork [c4Q, c4S, c4P]).nodes.map Prod.fst = ["a".toList, "b".toList] := by
  decide

theorem filterCites_ne_nil_isEmpty {cites : List Citation} {nt : NodeType}
    {dA dNJ : Bool} {kws : List Str} {cc : Option (Citation → Bool)} {X Y : Citation}
    (h : filterCites cites nt dA dNJ kws cc = [X, Y]) : cites.isEmpty = false := by
  cases hc : cites with
  | nil => rw [hc] at h; exact absurd h (by simp [filterCites])
  | cons a l => rfl

/-- C6: for a collection of two distinct records whose citation lists both
filter to exactly the citations X and Y, with X and Y mapping to distinct node
ids, the weighted co-citation network has exactly one edge, between the ids of
X and Y, with weight 2. -/
theorem claim_C6 (r1 r2 : Record) (X Y : Citation) (nt : NodeType)
    (dA dNJ nI fI cnt : Bool) (kws : List Str)
    (_hr : r1 ≠ r2)
    (h1 : filterCites r1.citations nt dA dNJ kws Option.none = [X, Y])
    (h2 : filterCites r2.citations nt dA dNJ kws Option.none = [X, Y] ∨
      filterCites r2.citations nt dA dNJ kws Option.none = [Y, X])
    (hne : makeID X nt ≠ makeID Y nt) :
    (coCiteNetwork [r1, r2] dA nt nI fI true dNJ cnt kws false).edges
      = [(makeID X nt, makeID Y nt, some 2)] := by
  have hXY : (makeID X nt == makeID Y nt) = false := beq_eq_false_iff_ne.mpr hne
  have hYX : (makeID Y nt == makeID X nt) = false := beq_eq_false_iff_ne.mpr (Ne.symm hne)
  have hc1 := filterCites_ne_nil_isEmpty h1
  rcases h2 with h2 | h2 <;>
  · have hc2 := filterCites_ne_nil_isEmpty h2
    unfold coCiteNetwork
    rw [if_neg (by exact fun h => nomatch h)]
    simp only [List.foldl_cons, List.foldl_nil, hc1, hc2, Bool.false_eq_true, if_false, h1, h2]
    cases cnt <;>
      simp [addToNetwork, makeNodeTuple, Graph.hasNode, Graph.addNode, Graph.bumpNodeCount,
        Graph.empty, outerPairs, innerPairs, Graph.incEdgeWeightOrAdd, Graph.ensureNode,
        Graph.hasEdge, edgeKeyMatch, Graph.addEdgePlain, hXY, hYX, hne, Ne.symm hne]

def c6X : Citation :=
  ⟨some "X".toList, Option.none, Option.none, Option.none, Option.none,
    "X".toList, "X".toList, "X".toList, "X".toList, false, true⟩

def c6Y : Citation := { c6X with author := some "Y".toList }

def r61 : Record := ⟨"r61".toList, [], [c6X, c6Y], Option.none, false, []⟩

def r62 : Record := ⟨"r62".toList, [], [c6X, c6Y], Option.none, false, []⟩

/-- Witness for C6 at two concrete records each citing the distinct citations
c6X and c6Y, in author mode with the default flags. -/
theorem claim_C6_witness :
    r61 ≠ r62 ∧
    filterCites r61.citations NodeType.author true false [] Option.none = [c6X, c6Y] ∧
    (filterCites r62.citations NodeType.author true false [] Option.none = [c6X, c6Y] ∨
      filterCites r62.citations NodeType.author true false [] Option.none = [c6Y, c6X]) ∧
    makeID c6X NodeType.author ≠ makeID c6Y NodeType.author ∧
    (coCiteNetwork [r61, r62] true NodeType.author true false true false true [] false).edges
      = [(makeID c6X NodeType.author, makeID c6Y NodeType.author, some 2)] :=
  ⟨by decide, by decide, Or.inl (by decide), by decide,
    claim_C6 r61 r62 c6X c6Y NodeType.author true false true false true []
      (by decide) (by decide) (Or.inl (by decide)) (by decide)⟩

end MK
